import Mathlib

/-!
Verification of the SD/MMC card emulation (mmc.c) of libspectrum-od.

The card state and every operation of mmc.c are shallowly embedded below:
machine bytes and words are `Nat` with explicit wrapping where the C
arithmetic wraps, the response/send buffers and cached sector buffers are
functions `Nat → Nat`, the glib hash table used for the write cache is
modelled as an association list, and `abort()` is modelled by returning
`none` from the affected operation.
-/

set_option maxRecDepth 8192

namespace Mmc

/-- Pointwise update of a byte buffer, modelling a single array store. -/
def upd (f : Nat → Nat) (i v : Nat) : Nat → Nat := fun j => if j = i then v else f j

/-- The states of the command state machine (enum command_state_t in mmc.c). -/
inductive CommandState where
  | waitingForCommand
  | waitingForData0
  | waitingForData1
  | waitingForData2
  | waitingForData3
  | waitingForCrc
  | waitingForDataToken
  | waitingForData
  | waitingForDataCrc1
  | waitingForDataCrc2
  deriving DecidableEq, Repr

/-- The open backing image file: its length in bytes and its contents. -/
structure DiskFile where
  size : Nat
  bytes : Nat → Nat

/-- The libspectrum_ide_drive structure as used by mmc.c: an optional open
file plus the geometry fields read by libspectrum_mmc_insert and the
sector routines. -/
structure Drive where
  disk : Option DiskFile
  sector_size : Nat
  data_offset : Nat
  cylinders : Nat
  heads : Nat
  sectors : Nat

/-- The write cache. The glib GHashTable (with g_int_hash / g_int_equal
keys) is modelled as an association list from sector number to the owned
sector buffer. -/
abbrev Cache := List (Nat × (Nat → Nat))

/-- g_hash_table_lookup on the write cache. -/
def cacheLookup : Cache → Nat → Option (Nat → Nat)
  | [], _ => none
  | (k, v) :: rest, n => if k = n then some v else cacheLookup rest n

/-- Storing a buffer for a sector number: on a hit mmc.c overwrites the
existing buffer in place, on a miss it allocates a key/buffer pair and
inserts it; both collapse to replace-or-append on the association list. -/
def cacheStore : Cache → Nat → (Nat → Nat) → Cache
  | [], n, v => [(n, v)]
  | (k, w) :: rest, n, v =>
      if k = n then (n, v) :: rest else (k, w) :: cacheStore rest n v

/-- The libspectrum_mmc_card structure. -/
structure MmcCard where
  drive : Drive
  cache : Cache
  c_size : Nat
  is_idle : Nat
  command_state : CommandState
  current_command : Nat
  current_argument : Nat → Nat
  data_count : Nat
  send_buffer : Nat → Nat
  response_buffer : Nat → Nat
  response_next : Nat
  response_end : Nat

/-- libspectrum_mmc_alloc: the card is malloc'd, so every field the code
does not initialise keeps an arbitrary (junk) value, here taken from the
argument card. The code sets is_idle = 0, command_state =
WAITING_FOR_COMMAND, an empty response window and a fresh empty cache. -/
def libspectrum_mmc_alloc (junk : MmcCard) : MmcCard :=
  { junk with
    is_idle := 0
    command_state := CommandState.waitingForCommand
    response_next := 0
    response_end := 0
    cache := [] }

/-- Modelled from the spec: libspectrum_ide_eject_from_drive (ide.c is not
among the sources) discards the sector cache and releases the backing
image handle (spec section 4.3 discard and section 6 eject_media). -/
def libspectrum_mmc_eject (card : MmcCard) : MmcCard :=
  { card with cache := [], drive := { card.drive with disk := none } }

/-- libspectrum_mmc_insert, geometry part. The openResult argument stands
for the outcome of libspectrum_ide_insert_into_drive (ide.c is not among
the sources): none means the open failed and the error is propagated,
some drv means the drive was opened with the given geometry. On success
the code computes total_sectors = cylinders * heads * sectors as a 32-bit
word, c_size_raw = (total_sectors >> 9) - 1 in 32-bit arithmetic, and
stores c_size clamped to 2^12 - 1 = 4095. (The NULL-filename eject-only
branch is not modelled; no claim mentions it.) -/
def libspectrum_mmc_insert (card : MmcCard) (openResult : Option Drive) :
    Option MmcCard :=
  let c := libspectrum_mmc_eject card
  match openResult with
  | none => none
  | some drv =>
      let total := (drv.cylinders * drv.heads * drv.sectors) % 2 ^ 32
      let craw := ((total >>> 9) + (2 ^ 32 - 1)) % 2 ^ 32
      some { c with
        drive := drv
        c_size := if craw ≥ 2 ^ 12 then 2 ^ 12 - 1 else craw }

/-- libspectrum_mmc_dirty: the cache is non-empty. -/
def libspectrum_mmc_dirty (card : MmcCard) : Bool :=
  decide (card.cache.length ≠ 0)

/-- One sector-sized write into the backing file at byte position pos,
extending the file if the write reaches past its current end. -/
def diskWriteSector (d : DiskFile) (pos len : Nat) (buf : Nat → Nat) : DiskFile :=
  { size := max d.size (pos + len)
    bytes := fun i => if pos ≤ i ∧ i < pos + len then buf (i - pos) else d.bytes i }

/-- Modelled from the spec: libspectrum_ide_commit_drive (ide.c is not
among the sources) writes every cached sector to the backing image at its
sector's file offset and then clears the cache (spec section 4.3 commit). -/
def libspectrum_mmc_commit (card : MmcCard) : MmcCard :=
  match card.drive.disk with
  | none => card
  | some dk =>
      let dk' := card.cache.foldl
        (fun d kv =>
          diskWriteSector d
            (card.drive.data_offset + card.drive.sector_size * kv.1)
            card.drive.sector_size kv.2)
        dk
      { card with cache := [], drive := { card.drive with disk := some dk' } }

/-- libspectrum_mmc_read: pop the next response byte, or 0xff once the
response window is exhausted. -/
def libspectrum_mmc_read (card : MmcCard) : Nat × MmcCard :=
  if card.response_next < card.response_end then
    (card.response_buffer card.response_next,
     { card with response_next := card.response_next + 1 })
  else
    (0xff, card)

/-- Iterated reads: the byte returned by the (n+1)-st consecutive call to
libspectrum_mmc_read, together with the card afterwards. -/
def mmcReadN : MmcCard → Nat → Nat × MmcCard
  | card, 0 => libspectrum_mmc_read card
  | card, n + 1 => mmcReadN (libspectrum_mmc_read card).2 n

/-- The nine command opcodes accepted by parse_command. -/
def supportedCommand (c : Nat) : Bool :=
  c = 0 || c = 8 || c = 9 || c = 10 || c = 17 || c = 24 || c = 41 || c = 55 ||
    c = 58

/-- parse_command. Returns none when the code calls abort() (framing bits
correct but unknown opcode), some (false, card) when the framing check
fails (byte rejected, card unchanged), and some (true, card') when the
opcode is recorded. -/
def parse_command (card : MmcCard) (b : Nat) : Option (Bool × MmcCard) :=
  if b &&& 0xc0 ≠ 0x40 then some (false, card)
  else
    let command := b &&& 0x3f
    if supportedCommand command then
      some (true, { card with current_command := command })
    else
      none

/-- set_response_buffer_r1. -/
def set_response_buffer_r1 (card : MmcCard) : MmcCard :=
  { card with
    response_buffer := upd card.response_buffer 0 card.is_idle
    response_next := 0
    response_end := 1 }

/-- set_response_buffer_r7. -/
def set_response_buffer_r7 (card : MmcCard) (value : Nat) : MmcCard :=
  { card with
    response_buffer :=
      upd (upd (upd (upd (upd card.response_buffer
        0 card.is_idle)
        1 ((value &&& 0xff000000) >>> 24))
        2 ((value &&& 0x00ff0000) >>> 16))
        3 ((value &&& 0x0000ff00) >>> 8))
        4 (value &&& 0x000000ff)
    response_next := 0
    response_end := 5 }

/-- The 32-bit big-endian word assembled from the four argument bytes, as
computed at the top of read_single_block and write_single_block. -/
def argWord (card : MmcCard) : Nat :=
  (card.current_argument 3 + card.current_argument 2 * 2 ^ 8 +
   card.current_argument 1 * 2 ^ 16 + card.current_argument 0 * 2 ^ 24) % 2 ^ 32

/-- The 256-to-512 byte expansion used when the backing sector size is
256: source byte i lands at payload offset 2i, with 0xff at 2i+1. -/
def expand256 (buffer : Nat → Nat) : Nat → Nat :=
  fun j => if j % 2 = 0 then buffer (j / 2) else 0xff

/-- read_single_block. Returns none when the fseek/fread of the backing
image fails (the caller do_command then aborts). The sector buffer is
taken from the write cache when present, else read from the backing image
at data_offset + sector_size * sector_number. -/
def read_single_block (card : MmcCard) : Option MmcCard :=
  let sector_number := argWord card
  let buffer? : Option (Nat → Nat) :=
    match cacheLookup card.cache sector_number with
    | some b => some b
    | none =>
        match card.drive.disk with
        | none => none
        | some dk =>
            let pos := card.drive.data_offset +
              card.drive.sector_size * sector_number
            if pos + card.drive.sector_size ≤ dk.size then
              some (fun i => dk.bytes (pos + i))
            else none
  match buffer? with
  | none => none
  | some buffer =>
      let payload : Nat → Nat :=
        if card.drive.sector_size = 256 then expand256 buffer else buffer
      some { card with
        response_buffer := fun j =>
          if j = 0 then card.is_idle
          else if j = 1 then 0xfe
          else if j < 514 then payload (j - 2)
          else if j < 516 then 0
          else card.response_buffer j
        response_next := 0
        response_end := 516 }

/-- The CSD response buffer built by the SEND_CSD branch of do_command:
idle flag, data token 0xfe, 16 CSD bytes (all zero except READ_BL_LEN = 9
at CSD byte 5, the 12-bit c_size spread 2/8/2 over CSD bytes 6 to 8 and
the C_SIZE_MULT = 7 bits 0x03, 0x80 at CSD bytes 9 and 10), then two zero
CRC bytes. Byte stores of c_size pieces are reduced modulo 256 as the C
byte store does. -/
def csdResponse (card : MmcCard) : Nat → Nat :=
  fun j =>
    if j = 0 then card.is_idle
    else if j = 1 then 0xfe
    else if j = 7 then 0x09
    else if j = 8 then (card.c_size >>> 10) % 256
    else if j = 9 then (card.c_size >>> 2) &&& 0xff
    else if j = 10 then (card.c_size &&& 0x03) <<< 6
    else if j = 11 then 0x03
    else if j = 12 then 0x80
    else if j < 20 then 0
    else card.response_buffer j

/-- do_command: executed when the CRC byte of a command arrives. With no
backing image inserted it does nothing; otherwise it dispatches on the
recorded opcode. none models the abort() on a failed read or an opcode
outside the supported set (unreachable from parse_command). -/
def do_command (card : MmcCard) : Option MmcCard :=
  match card.drive.disk with
  | none => some card
  | some _ =>
      match card.current_command with
      | 0 => some (set_response_buffer_r1 { card with is_idle := 1 })
      | 8 => some (set_response_buffer_r7 card 0x000001aa)
      | 9 => some { card with
                    response_buffer := csdResponse card
                    response_next := 0
                    response_end := 20 }
      | 10 => some { card with
                     response_buffer := fun j =>
                       if j = 0 then card.is_idle
                       else if j = 1 then 0xfe
                       else if j < 20 then 0
                       else card.response_buffer j
                     response_next := 0
                     response_end := 20 }
      | 17 => read_single_block card
      | 24 => some (set_response_buffer_r1 card)
      | 41 => some (set_response_buffer_r1 { card with is_idle := 0 })
      | 55 => some (set_response_buffer_r1 card)
      | 58 => some (set_response_buffer_r7 card 0xc0000000)
      | _ => none

/-- The packing applied by write_single_block before the payload enters
the write cache: with a 256-byte backing sector every other source byte
is kept, otherwise the 512 bytes are copied unchanged. -/
def packBuffer (sector_size : Nat) (send : Nat → Nat) : Nat → Nat :=
  if sector_size = 256 then fun i => send (i * 2) else send

/-- write_single_block: store the (packed) send buffer into the write
cache under the 32-bit argument word as sector number. -/
def write_single_block (card : MmcCard) : MmcCard :=
  { card with
    cache := cacheStore card.cache (argWord card)
      (packBuffer card.drive.sector_size card.send_buffer) }

/-- do_command_data: after the data phase of WRITE_BLOCK, commit the
payload to the cache and place the 0x05 0x05 data-accepted response; for
any other command the code aborts (none). -/
def do_command_data (card : MmcCard) : Option MmcCard :=
  match card.current_command with
  | 24 =>
      let c := write_single_block card
      some { c with
        response_buffer := upd (upd c.response_buffer 0 0x05) 1 0x05
        response_next := 0
        response_end := 2 }
  | _ => none

/-- libspectrum_mmc_write: one step of the command state machine. none
models a call to abort(). -/
def libspectrum_mmc_write (card : MmcCard) (data : Nat) : Option MmcCard :=
  match card.command_state with
  | CommandState.waitingForCommand =>
      match parse_command card data with
      | none => none
      | some (ok, card') =>
          some (if ok then
                  { card' with command_state := CommandState.waitingForData0 }
                else card')
  | CommandState.waitingForData0 =>
      some { card with
        current_argument := upd card.current_argument 0 data
        command_state := CommandState.waitingForData1 }
  | CommandState.waitingForData1 =>
      some { card with
        current_argument := upd card.current_argument 1 data
        command_state := CommandState.waitingForData2 }
  | CommandState.waitingForData2 =>
      some { card with
        current_argument := upd card.current_argument 2 data
        command_state := CommandState.waitingForData3 }
  | CommandState.waitingForData3 =>
      some { card with
        current_argument := upd card.current_argument 3 data
        command_state := CommandState.waitingForCrc }
  | CommandState.waitingForCrc =>
      match do_command card with
      | none => none
      | some card' =>
          some { card' with
            command_state :=
              if card'.current_command = 24 then
                CommandState.waitingForDataToken
              else CommandState.waitingForCommand }
  | CommandState.waitingForDataToken =>
      if data = 0xfe then
        some { card with
          command_state := CommandState.waitingForData
          data_count := 0 }
      else some card
  | CommandState.waitingForData =>
      let c := { card with
        send_buffer := upd card.send_buffer card.data_count data
        data_count := card.data_count + 1 }
      some (if c.data_count = 512 then
              { c with command_state := CommandState.waitingForDataCrc1 }
            else c)
  | CommandState.waitingForDataCrc1 =>
      some { card with command_state := CommandState.waitingForDataCrc2 }
  | CommandState.waitingForDataCrc2 =>
      match do_command_data card with
      | none => none
      | some card' =>
          some { card' with command_state := CommandState.waitingForCommand }

/-- Feed a list of bytes to the card, stopping with none if any step
aborts. -/
def runBytes (card : MmcCard) : List Nat → Option MmcCard
  | [] => some card
  | b :: rest =>
      match libspectrum_mmc_write card b with
      | none => none
      | some c => runBytes c rest

/-- The invariant of the response window: the read cursor never passes
the logical end, and the logical end never passes the 516-byte capacity
of response_buffer. -/
def RespInv (card : MmcCard) : Prop :=
  card.response_next ≤ card.response_end ∧ card.response_end ≤ 516

/-- Following the spec's section 4.1 state ordering, for comparison with
the source state machine: the state after one byte. From WaitingForCommand
an accepted command byte moves to the first argument state; the argument
states chain to WaitingForCrc; from there WRITE_BLOCK (opcode 24) enters
the data phase and every other command returns to WaitingForCommand; the
data-token state waits for 0xfe; the data state leaves after the 512th
payload byte; the two data-CRC states lead back to WaitingForCommand. -/
def specNextState (s : CommandState) (card : MmcCard) (b : Nat) : CommandState :=
  match s with
  | CommandState.waitingForCommand =>
      if b &&& 0xc0 = 0x40 ∧ supportedCommand (b &&& 0x3f) = true then
        CommandState.waitingForData0
      else CommandState.waitingForCommand
  | CommandState.waitingForData0 => CommandState.waitingForData1
  | CommandState.waitingForData1 => CommandState.waitingForData2
  | CommandState.waitingForData2 => CommandState.waitingForData3
  | CommandState.waitingForData3 => CommandState.waitingForCrc
  | CommandState.waitingForCrc =>
      if card.current_command = 24 then CommandState.waitingForDataToken
      else CommandState.waitingForCommand
  | CommandState.waitingForDataToken =>
      if b = 0xfe then CommandState.waitingForData
      else CommandState.waitingForDataToken
  | CommandState.waitingForData =>
      if card.data_count + 1 = 512 then CommandState.waitingForDataCrc1
      else CommandState.waitingForData
  | CommandState.waitingForDataCrc1 => CommandState.waitingForDataCrc2
  | CommandState.waitingForDataCrc2 => CommandState.waitingForCommand

/-- Following the spec's section 4.1, for comparison with the source: the
argument bytes after one byte, most-significant byte (index 0, the one
that argWord shifts by 24) first. -/
def specArgs (s : CommandState) (args : Nat → Nat) (b : Nat) : Nat → Nat :=
  match s with
  | CommandState.waitingForData0 => upd args 0 b
  | CommandState.waitingForData1 => upd args 1 b
  | CommandState.waitingForData2 => upd args 2 b
  | CommandState.waitingForData3 => upd args 3 b
  | _ => args

/-- Following the spec's section 4.1, for comparison with the source: the
payload counter after one byte (reset to 0 by the 0xfe data token,
incremented by each payload byte). -/
def specCount (s : CommandState) (card : MmcCard) (b : Nat) : Nat :=
  match s with
  | CommandState.waitingForDataToken => if b = 0xfe then 0 else card.data_count
  | CommandState.waitingForData => card.data_count + 1
  | _ => card.data_count

/-- A drive with no open backing image. -/
def zeroDrive : Drive :=
  { disk := none, sector_size := 512, data_offset := 0, cylinders := 0,
    heads := 0, sectors := 0 }

/-- A fully concrete card with every field zeroed, no backing image. -/
def zeroCard : MmcCard :=
  { drive := zeroDrive, cache := [], c_size := 0, is_idle := 0,
    command_state := CommandState.waitingForCommand, current_command := 0,
    current_argument := fun _ => 0, data_count := 0, send_buffer := fun _ => 0,
    response_buffer := fun _ => 0, response_next := 0, response_end := 0 }

/-- A concrete all-zero backing image of 512 sectors of 512 bytes. -/
def smallDisk : DiskFile := { size := 262144, bytes := fun _ => 0 }

/-- A concrete opened drive: 1 cylinder, 1 head, 512 sectors per track,
512-byte sectors. -/
def diskDrive512 : Drive :=
  { disk := some smallDisk, sector_size := 512, data_offset := 0,
    cylinders := 1, heads := 1, sectors := 512 }

/-- A concrete card with the 512-byte-sector image inserted. -/
def readyCard512 : MmcCard := { zeroCard with drive := diskDrive512 }

/-- The same opened drive but with a 256-byte backing sector size. -/
def diskDrive256 : Drive := { diskDrive512 with sector_size := 256 }

/-- A concrete card with a 256-byte-sector image inserted. -/
def readyCard256 : MmcCard := { zeroCard with drive := diskDrive256 }

/-- The card that results from inserting diskDrive512 into zeroCard. -/
def insertedCard512 : MmcCard :=
  { zeroCard with drive := diskDrive512, c_size := 0 }

/-- A concrete no-media card whose junk drive fields carry a 256-byte
sector size, as after ejecting a 256-byte-sector image. -/
def zeroCard256 : MmcCard :=
  { zeroCard with drive := { zeroDrive with sector_size := 256 } }

/-- A concrete card waiting for the CRC byte of SEND_IF_COND. -/
def ifCondCard : MmcCard :=
  { readyCard512 with
    command_state := CommandState.waitingForCrc
    current_command := 8 }

/-- A concrete card with an exhausted three-byte response window. -/
def staleCard : MmcCard :=
  { zeroCard with response_next := 3, response_end := 3 }

/-- A concrete card with a one-byte response window holding 0x3c. -/
def pendingCard : MmcCard :=
  { zeroCard with
    response_buffer := upd (fun _ => 0) 0 0x3c
    response_next := 0
    response_end := 1 }

/-- A concrete junk card with a non-empty response window, fed to
libspectrum_mmc_alloc to model the malloc'd uninitialised memory. -/
def junkCard : MmcCard :=
  { zeroCard with response_next := 2, response_end := 9 }

/-- A concrete mediless card waiting for the CRC byte of SEND_CSD with a
stale one-byte response window. -/
def noMediaCsdCard : MmcCard :=
  { zeroCard with
    command_state := CommandState.waitingForCrc
    current_command := 9
    response_next := 0
    response_end := 1 }

/-- A concrete card with c_size = 5 waiting for the CRC byte of
SEND_CSD. -/
def csdCard : MmcCard :=
  { readyCard512 with
    command_state := CommandState.waitingForCrc
    current_command := 9
    c_size := 5 }

/-- The card after csdCard executes SEND_CSD. -/
def csdCardAfter : MmcCard :=
  { csdCard with
    response_buffer := csdResponse csdCard
    response_next := 0
    response_end := 20
    command_state := CommandState.waitingForCommand }

/-- The card after the zeroed card accepts command byte 0x51
(READ_SINGLE_BLOCK). -/
def argCard17 : MmcCard :=
  { zeroCard with
    current_command := 17
    command_state := CommandState.waitingForData0 }

/-- Storing a list of bytes into a buffer at consecutive indices starting
at k, as the WaitingForData state does byte by byte. -/
def storeList : (Nat → Nat) → Nat → List Nat → (Nat → Nat)
  | f, _, [] => f
  | f, k, b :: rest => storeList (upd f k b) (k + 1) rest

/-- The four argument stores performed by the argument states, index 0
(most significant) first. -/
def args4 (f : Nat → Nat) (a0 a1 a2 a3 : Nat) : Nat → Nat :=
  upd (upd (upd (upd f 0 a0) 1 a1) 2 a2) 3 a3

/-- The 32-bit sector number assembled from four argument bytes. -/
def sectorOf (a0 a1 a2 a3 : Nat) : Nat :=
  (a3 + a2 * 2 ^ 8 + a1 * 2 ^ 16 + a0 * 2 ^ 24) % 2 ^ 32

/-- The card as it stands when the CRC byte of a command arrives: opcode
recorded, four argument bytes stored, state WaitingForCrc. -/
def withArgs (card : MmcCard) (cmd a0 a1 a2 a3 : Nat) : MmcCard :=
  { card with
    current_command := cmd
    current_argument := args4 card.current_argument a0 a1 a2 a3
    command_state := CommandState.waitingForCrc }

/-- The card after a complete WRITE_BLOCK byte sequence (command, four
argument bytes, CRC, data token, 512 payload bytes L, two data CRC
bytes): payload stored in send_buffer and (packed) in the cache under the
argument sector number, the 0x05 0x05 data-accepted response pending, and
the state machine back at WaitingForCommand. rb is the response buffer as
left by the CRC-time command execution (the R1 write when an image is
present, the untouched old buffer when not). -/
def writeBlockResult (card : MmcCard) (a0 a1 a2 a3 : Nat) (L : List Nat)
    (rb : Nat → Nat) : MmcCard :=
  { card with
    current_command := 24
    current_argument := args4 card.current_argument a0 a1 a2 a3
    data_count := 512
    send_buffer := storeList card.send_buffer 0 L
    cache := cacheStore card.cache (sectorOf a0 a1 a2 a3)
      (packBuffer card.drive.sector_size (storeList card.send_buffer 0 L))
    response_buffer := upd (upd rb 0 0x05) 1 0x05
    response_next := 0
    response_end := 2
    command_state := CommandState.waitingForCommand }

/-- The full WRITE_BLOCK wire sequence for payload P: command byte 0x58,
four argument bytes, a CRC byte, the 0xfe data token, the 512 payload
bytes P 0 .. P 511, and two data CRC bytes. -/
def writeSeq (a0 a1 a2 a3 cA cB cC : Nat) (P : Nat → Nat) : List Nat :=
  0x58 :: a0 :: a1 :: a2 :: a3 :: cA :: 0xfe ::
    ((List.range 512).map P ++ [cB, cC])

/-- The READ_SINGLE_BLOCK wire sequence: command byte 0x51, four argument
bytes and a CRC byte. -/
def readSeq (a0 a1 a2 a3 cD : Nat) : List Nat :=
  [0x51, a0, a1, a2, a3, cD]

end Mmc

namespace Mmc

/-- C1. The claim as stated is false on this code: libspectrum_mmc_insert
checks neither the backing sector size nor any divisibility condition,
and an image of exactly 512 sectors of 512 bytes (geometry 1 x 1 x 512)
is accepted, with c_size stored as ((512 >> 9) - 1) = 0 — the claim
demands that this insertion fail. -/
theorem insert_512x512_succeeds_counterexample :
    (libspectrum_mmc_insert zeroCard (some diskDrive512)).map
      (fun r => r.c_size) = some 0 := by
  rfl

/-- C1 (amended). Once the backing drive opens, insertion always succeeds
regardless of sector size and with no divisibility constraint; the stored
c_size is min(c_raw, 4095) where c_raw = (total_sectors >> 9) - 1 is
computed in wrapping 32-bit arithmetic from total_sectors =
cylinders * heads * sectors (mod 2^32). The inserted drive replaces the
old one and the cache is cleared by the eject that insert performs
first. -/
theorem insert_c_size_spec (card : MmcCard) (drv : Drive) (r : MmcCard)
    (h : libspectrum_mmc_insert card (some drv) = some r) :
    r.c_size = min (((((drv.cylinders * drv.heads * drv.sectors) % 2 ^ 32) >>> 9)
        + (2 ^ 32 - 1)) % 2 ^ 32) (2 ^ 12 - 1)
    ∧ r.cache = [] ∧ r.drive = drv := by
  simp only [libspectrum_mmc_insert, libspectrum_mmc_eject,
    Option.some.injEq] at h
  subst h
  refine ⟨?_, rfl, rfl⟩
  dsimp only
  split
  · omega
  · omega

/-- C1 witness: inserting the concrete 1 x 1 x 512 geometry, 512-byte
sector image succeeds and stores c_size = 0. -/
theorem insert_c_size_spec_witness :
    insertedCard512.c_size =
      min (((((diskDrive512.cylinders * diskDrive512.heads *
        diskDrive512.sectors) % 2 ^ 32) >>> 9) + (2 ^ 32 - 1)) % 2 ^ 32)
        (2 ^ 12 - 1)
    ∧ insertedCard512.cache = [] ∧ insertedCard512.drive = diskDrive512 :=
  insert_c_size_spec zeroCard diskDrive512 insertedCard512 rfl

/-- C3. The claim as stated is false on this code: SEND_IF_COND ignores
the command argument entirely. With all four argument bytes 0 the claim
demands the R7 payload 0x100 ||| 0 = 0x00000100 (response bytes 1..4
equal to 0x00 0x00 0x01 0x00), but the code always produces 0x000001aa:
after the sequence 0x48 0 0 0 0 0 the response bytes 1..4 are
0x00 0x00 0x01 0xaa. -/
theorem send_if_cond_ignores_argument_counterexample :
    (runBytes readyCard512 [0x48, 0, 0, 0, 0, 0]).map
      (fun c => (c.response_buffer 1, c.response_buffer 2,
        c.response_buffer 3, c.response_buffer 4)) =
      some (0x00, 0x00, 0x01, 0xaa) := by
  decide

/-- C3 (amended). Executing SEND_IF_COND (opcode 8) with a backing image
present places a 5-byte R7 response whose 32-bit big-endian payload is
always 0x000001aa, whatever the argument bytes hold; nothing else of the
card changes (the idle flag, cache, c_size, argument and data buffers are
untouched) and the state machine returns to WaitingForCommand. -/
theorem send_if_cond_response (card : MmcCard) (dk : DiskFile) (b : Nat)
    (hs : card.command_state = CommandState.waitingForCrc)
    (hc : card.current_command = 8)
    (hd : card.drive.disk = some dk) :
    libspectrum_mmc_write card b =
      some { card with
        response_buffer :=
          upd (upd (upd (upd (upd card.response_buffer
            0 card.is_idle) 1 0x00) 2 0x00) 3 0x01) 4 0xaa
        response_next := 0
        response_end := 5
        command_state := CommandState.waitingForCommand } := by
  simp only [libspectrum_mmc_write, hs, do_command, hd, hc,
    set_response_buffer_r7]
  simp only [show ((0x1aa : Nat) &&& 0xff000000) >>> 24 = 0 from by decide,
    show ((0x1aa : Nat) &&& 0x00ff0000) >>> 16 = 0 from by decide,
    show ((0x1aa : Nat) &&& 0x0000ff00) >>> 8 = 1 from by decide,
    show (0x1aa : Nat) &&& 0x000000ff = 0xaa from by decide]
  norm_num

/-- C3 witness: the amended theorem applied to a concrete card waiting
for the CRC byte of SEND_IF_COND. -/
theorem send_if_cond_response_witness :
    libspectrum_mmc_write ifCondCard 0x55 =
      some { ifCondCard with
        response_buffer :=
          upd (upd (upd (upd (upd ifCondCard.response_buffer
            0 ifCondCard.is_idle) 1 0x00) 2 0x00) 3 0x01) 4 0xaa
        response_next := 0
        response_end := 5
        command_state := CommandState.waitingForCommand } :=
  send_if_cond_response ifCondCard smallDisk 0x55 rfl rfl rfl

/-- C4. The claim as stated is false on this code: a correctly framed
command byte with an unsupported opcode is fatal — parse_command calls
abort() (modelled as none). Byte 0x41 (framing bits 01, opcode 1, not in
the supported set) aborts the process instead of being reported and
ignored. -/
theorem unknown_opcode_aborts_counterexample :
    libspectrum_mmc_write zeroCard 0x41 = none := by
  rfl

/-- C4 (amended). In WaitingForCommand, a byte whose bits 7:6 are not 01
is ignored: no error surfaces, the byte produces no response, and the
card (state machine included) is exactly unchanged. A byte with correct
framing but an opcode outside the nine supported ones calls abort() —
the error is fatal to the process (modelled by none), not reported and
ignored as the claim states. -/
theorem waiting_for_command_byte_handling (card : MmcCard) (b : Nat)
    (hs : card.command_state = CommandState.waitingForCommand) :
    (b &&& 0xc0 ≠ 0x40 → libspectrum_mmc_write card b = some card)
    ∧ (b &&& 0xc0 = 0x40 → supportedCommand (b &&& 0x3f) = false →
        libspectrum_mmc_write card b = none) := by
  constructor
  · intro hb
    simp [libspectrum_mmc_write, hs, parse_command, hb]
  · intro hb hcmd
    simp [libspectrum_mmc_write, hs, parse_command, hb, hcmd]

/-- C4 witness: on a concrete zeroed card, byte 0x00 (bad framing) is
ignored leaving the card unchanged, and byte 0x41 (good framing, opcode 1
unsupported) aborts. -/
theorem waiting_for_command_byte_handling_witness :
    libspectrum_mmc_write zeroCard 0x00 = some zeroCard
    ∧ libspectrum_mmc_write zeroCard 0x41 = none :=
  ⟨(waiting_for_command_byte_handling zeroCard 0x00 rfl).1 (by decide),
   (waiting_for_command_byte_handling zeroCard 0x41 rfl).2 (by decide)
     (by decide)⟩

/-- C7. The claim as stated is false on this code: the CSD block carries
no structure-version-2.0 marker. CSD v2.0 requires CSD_STRUCTURE = 01 in
bits 7:6 of CSD byte 0 (response offset 2), i.e. the byte 0x40; the code
memsets that byte to 0x00, the v1.0 code. Likewise the claim's CSD v2
c_size layout would put the low c_size byte at CSD byte 9 (response
offset 11), but with c_size = 5 the code emits the constant 0x03 there.
Concretely, after 0x49 0 0 0 0 0 on a card with c_size = 5 the response
bytes at offsets 2 and 11 are 0x00 and 0x03, not 0x40 and 0x05. -/
theorem send_csd_not_v2_counterexample :
    (runBytes csdCard [0x49, 0, 0, 0, 0, 0]).map
      (fun c => (c.response_buffer 2, c.response_buffer 11)) =
      some (0x00, 0x03) := by
  rfl

/-- C7 (amended). Executing SEND_CSD with a backing image present yields
a 20-byte response: the idle flag, the data token 0xfe, then the 16-byte
CSD block of a version-1.0 structure — CSD byte 0 is 0x00 (CSD_STRUCTURE
= 00, version 1.0), READ_BL_LEN = 9 at CSD byte 5, the 12-bit c_size
spread 2/8/2 across CSD bytes 6 to 8 (response offsets 8 to 10), the
fixed C_SIZE_MULT = 7 region 0x03, 0x80 at CSD bytes 9 and 10, all other
CSD bytes zero — then 2 zero CRC bytes; the card's idle flag, cache,
c_size and drive are unchanged and the state machine returns to
WaitingForCommand. -/
theorem send_csd_response (card card' : MmcCard) (dk : DiskFile) (b : Nat)
    (hs : card.command_state = CommandState.waitingForCrc)
    (hc : card.current_command = 9)
    (hd : card.drive.disk = some dk)
    (h : libspectrum_mmc_write card b = some card') :
    card'.response_next = 0 ∧ card'.response_end = 20
    ∧ card'.response_buffer 0 = card.is_idle
    ∧ card'.response_buffer 1 = 0xfe
    ∧ card'.response_buffer 2 = 0x00
    ∧ (∀ j, 3 ≤ j → j ≤ 6 → card'.response_buffer j = 0)
    ∧ card'.response_buffer 7 = 0x09
    ∧ card'.response_buffer 8 = (card.c_size >>> 10) % 256
    ∧ card'.response_buffer 9 = (card.c_size >>> 2) &&& 0xff
    ∧ card'.response_buffer 10 = (card.c_size &&& 0x03) <<< 6
    ∧ card'.response_buffer 11 = 0x03
    ∧ card'.response_buffer 12 = 0x80
    ∧ (∀ j, 13 ≤ j → j ≤ 19 → card'.response_buffer j = 0)
    ∧ card'.is_idle = card.is_idle ∧ card'.cache = card.cache
    ∧ card'.c_size = card.c_size ∧ card'.drive = card.drive
    ∧ card'.command_state = CommandState.waitingForCommand := by
  simp only [libspectrum_mmc_write, hs, do_command, hd, hc,
    Option.some.injEq] at h
  simp only [show (9 : Nat) = 24 ↔ False from by simp, if_false] at h
  subst h
  refine ⟨rfl, rfl, by simp [csdResponse], by simp [csdResponse],
    by simp [csdResponse], ?_, by simp [csdResponse], ?_, ?_, ?_,
    by simp [csdResponse], by simp [csdResponse], ?_, rfl, rfl, rfl, rfl, rfl⟩
  · intro j h1 h2
    interval_cases j <;> simp [csdResponse]
  · simp [csdResponse]
  · simp [csdResponse]
  · simp [csdResponse]
  · intro j h1 h2
    interval_cases j <;> simp [csdResponse]

/-- C7 witness: the amended theorem at the concrete csdCard (c_size = 5),
with representative bytes of each region instantiated. -/
theorem send_csd_response_witness :
    csdCardAfter.response_next = 0 ∧ csdCardAfter.response_end = 20
    ∧ csdCardAfter.response_buffer 0 = csdCard.is_idle
    ∧ csdCardAfter.response_buffer 1 = 0xfe
    ∧ csdCardAfter.response_buffer 2 = 0x00
    ∧ csdCardAfter.response_buffer 4 = 0
    ∧ csdCardAfter.response_buffer 7 = 0x09
    ∧ csdCardAfter.response_buffer 8 = (csdCard.c_size >>> 10) % 256
    ∧ csdCardAfter.response_buffer 9 = (csdCard.c_size >>> 2) &&& 0xff
    ∧ csdCardAfter.response_buffer 10 = (csdCard.c_size &&& 0x03) <<< 6
    ∧ csdCardAfter.response_buffer 11 = 0x03
    ∧ csdCardAfter.response_buffer 12 = 0x80
    ∧ csdCardAfter.response_buffer 18 = 0
    ∧ csdCardAfter.command_state = CommandState.waitingForCommand := by
  have h := send_csd_response csdCard csdCardAfter smallDisk 0xff
    rfl rfl rfl rfl
  exact ⟨h.1, h.2.1, h.2.2.1, h.2.2.2.1, h.2.2.2.2.1,
    h.2.2.2.2.2.1 4 (by decide) (by decide), h.2.2.2.2.2.2.1,
    h.2.2.2.2.2.2.2.1, h.2.2.2.2.2.2.2.2.1, h.2.2.2.2.2.2.2.2.2.1,
    h.2.2.2.2.2.2.2.2.2.2.1, h.2.2.2.2.2.2.2.2.2.2.2.1,
    h.2.2.2.2.2.2.2.2.2.2.2.2.1 18 (by decide) (by decide),
    h.2.2.2.2.2.2.2.2.2.2.2.2.2.2.2.2.2⟩

/-- Auxiliary: do_command never touches the recorded opcode, the argument
bytes or the payload counter. -/
theorem do_command_preserves (card card' : MmcCard)
    (h : do_command card = some card') :
    card'.current_command = card.current_command
    ∧ card'.current_argument = card.current_argument
    ∧ card'.data_count = card.data_count := by
  unfold do_command at h
  split at h
  · exact Option.some.inj h ▸ ⟨rfl, rfl, rfl⟩
  · split at h
    · exact Option.some.inj h ▸ ⟨rfl, rfl, rfl⟩
    · exact Option.some.inj h ▸ ⟨rfl, rfl, rfl⟩
    · exact Option.some.inj h ▸ ⟨rfl, rfl, rfl⟩
    · exact Option.some.inj h ▸ ⟨rfl, rfl, rfl⟩
    · simp only [read_single_block] at h
      split at h
      · exact absurd h (by simp)
      · exact Option.some.inj h ▸ ⟨rfl, rfl, rfl⟩
    · exact Option.some.inj h ▸ ⟨rfl, rfl, rfl⟩
    · exact Option.some.inj h ▸ ⟨rfl, rfl, rfl⟩
    · exact Option.some.inj h ▸ ⟨rfl, rfl, rfl⟩
    · exact Option.some.inj h ▸ ⟨rfl, rfl, rfl⟩
    · exact absurd h (by simp)

/-- Auxiliary: do_command_data never touches the argument bytes or the
payload counter. -/
theorem do_command_data_preserves (card card' : MmcCard)
    (h : do_command_data card = some card') :
    card'.current_argument = card.current_argument
    ∧ card'.data_count = card.data_count := by
  unfold do_command_data at h
  split at h
  · exact Option.some.inj h ▸ ⟨rfl, rfl⟩
  · exact absurd h (by simp)

/-- C5. One step of the state machine follows exactly the order the spec
describes, here captured by the spec-side functions specNextState,
specArgs and specCount: an accepted command byte moves WaitingForCommand
to the first argument state; the four argument states store their byte
(most-significant, index 0, first) and chain to WaitingForCrc; the CRC
byte executes the command and enters the data-token state exactly for
WRITE_BLOCK (opcode 24), else returns to WaitingForCommand; the token
state discards bytes until 0xfe, which zeroes the payload counter; the
data state counts 512 payload bytes before the two data-CRC states lead
back to WaitingForCommand. -/
theorem command_state_order (card card' : MmcCard) (b : Nat)
    (h : libspectrum_mmc_write card b = some card') :
    card'.command_state = specNextState card.command_state card b
    ∧ card'.current_argument = specArgs card.command_state card.current_argument b
    ∧ card'.data_count = specCount card.command_state card b := by
  cases hcs : card.command_state
  case waitingForCommand =>
    simp only [libspectrum_mmc_write, hcs] at h
    by_cases hb : b &&& 0xc0 = 0x40
    · by_cases hcmd : supportedCommand (b &&& 0x3f) = true
      · simp only [parse_command, hb, hcmd, ne_eq, not_true_eq_false,
          if_false, if_true, ite_true, ite_false, not_false_eq_true,
          Option.some.injEq, reduceCtorEq] at h
        rw [← h]
        simp [specNextState, specArgs, specCount, hcs, hb, hcmd]
      · simp [parse_command, hb, hcmd] at h
    · simp only [parse_command, hb, ne_eq, not_false_eq_true, if_true,
        ite_true, ite_false, Option.some.injEq] at h
      rw [← h]
      simp [specNextState, specArgs, specCount, hcs, hb]
  case waitingForData0 =>
    simp only [libspectrum_mmc_write, hcs, Option.some.injEq] at h
    rw [← h]
    simp [specNextState, specArgs, specCount, hcs]
  case waitingForData1 =>
    simp only [libspectrum_mmc_write, hcs, Option.some.injEq] at h
    rw [← h]
    simp [specNextState, specArgs, specCount, hcs]
  case waitingForData2 =>
    simp only [libspectrum_mmc_write, hcs, Option.some.injEq] at h
    rw [← h]
    simp [specNextState, specArgs, specCount, hcs]
  case waitingForData3 =>
    simp only [libspectrum_mmc_write, hcs, Option.some.injEq] at h
    rw [← h]
    simp [specNextState, specArgs, specCount, hcs]
  case waitingForCrc =>
    simp only [libspectrum_mmc_write, hcs] at h
    cases hdc : do_command card with
    | none => rw [hdc] at h; exact absurd h (by simp)
    | some c' =>
        rw [hdc] at h
        simp only [Option.some.injEq] at h
        obtain ⟨e1, e2, e3⟩ := do_command_preserves card c' hdc
        rw [← h]
        simp [specNextState, specArgs, specCount, hcs, e1, e2, e3]
  case waitingForDataToken =>
    simp only [libspectrum_mmc_write, hcs] at h
    by_cases hb : b = 0xfe
    · simp only [hb, if_true, ite_true, Option.some.injEq] at h
      rw [← h]
      simp [specNextState, specArgs, specCount, hcs, hb]
    · simp only [hb, if_false, ite_false, Option.some.injEq] at h
      rw [← h]
      simp [specNextState, specArgs, specCount, hcs, hb]
  case waitingForData =>
    simp only [libspectrum_mmc_write, hcs] at h
    by_cases h512 : card.data_count + 1 = 512
    · simp only [h512, if_true, ite_true, Option.some.injEq] at h
      rw [← h]
      simp [specNextState, specArgs, specCount, hcs, h512]
    · simp only [h512, if_false, ite_false, Option.some.injEq] at h
      rw [← h]
      simp [specNextState, specArgs, specCount, hcs, h512]
  case waitingForDataCrc1 =>
    simp only [libspectrum_mmc_write, hcs, Option.some.injEq] at h
    rw [← h]
    simp [specNextState, specArgs, specCount, hcs]
  case waitingForDataCrc2 =>
    simp only [libspectrum_mmc_write, hcs] at h
    cases hdd : do_command_data card with
    | none => rw [hdd] at h; exact absurd h (by simp)
    | some c' =>
        rw [hdd] at h
        simp only [Option.some.injEq] at h
        obtain ⟨e2, e3⟩ := do_command_data_preserves card c' hdd
        rw [← h]
        simp [specNextState, specArgs, specCount, hcs, e2, e3]

/-- C5 witness: the state-machine order theorem at the concrete step
that accepts READ_SINGLE_BLOCK (byte 0x51) from the zeroed card. -/
theorem command_state_order_witness :
    argCard17.command_state =
      specNextState zeroCard.command_state zeroCard 0x51
    ∧ argCard17.current_argument =
        specArgs zeroCard.command_state zeroCard.current_argument 0x51
    ∧ argCard17.data_count = specCount zeroCard.command_state zeroCard 0x51 :=
  command_state_order zeroCard argCard17 0x51 rfl

/-- Auxiliary: once the response window is exhausted, every further read
returns 0xff and leaves the card unchanged. -/
theorem mmcReadN_exhausted (card : MmcCard) (n : Nat)
    (h : card.response_end ≤ card.response_next) :
    mmcReadN card n = (0xff, card) := by
  induction n generalizing card with
  | zero => simp [mmcReadN, libspectrum_mmc_read, Nat.not_lt.mpr h]
  | succ n ih =>
      simp only [mmcReadN, libspectrum_mmc_read, if_neg (Nat.not_lt.mpr h)]
      exact ih card h

/-- C6. While the cursor is strictly before the response end, read_byte
returns the byte at the cursor and advances it; once the window is
exhausted every read returns 0xff and changes nothing, and a freshly
allocated card (whose window is empty whatever junk the rest of the
malloc'd structure holds) returns 0xff on every one of its reads. -/
theorem read_byte_spec (card card₂ junk : MmcCard) (n m : Nat)
    (h : card.response_end ≤ card.response_next)
    (h₂ : card₂.response_next < card₂.response_end) :
    libspectrum_mmc_read card = (0xff, card)
    ∧ mmcReadN card n = (0xff, card)
    ∧ (mmcReadN (libspectrum_mmc_alloc junk) m).1 = 0xff
    ∧ libspectrum_mmc_read card₂ =
        (card₂.response_buffer card₂.response_next,
         { card₂ with response_next := card₂.response_next + 1 }) := by
  refine ⟨?_, mmcReadN_exhausted card n h, ?_, ?_⟩
  · simp [libspectrum_mmc_read, Nat.not_lt.mpr h]
  · rw [mmcReadN_exhausted]
    simp [libspectrum_mmc_alloc]
  · simp [libspectrum_mmc_read, h₂]

/-- C6 witness: a card with a one-byte window being consumed, a card with
an exhausted window, and a freshly allocated card built from an arbitrary
concrete junk card. -/
theorem read_byte_spec_witness :
    libspectrum_mmc_read staleCard = (0xff, staleCard)
    ∧ mmcReadN staleCard 7 = (0xff, staleCard)
    ∧ (mmcReadN (libspectrum_mmc_alloc junkCard) 5).1 = 0xff
    ∧ libspectrum_mmc_read pendingCard =
        (pendingCard.response_buffer 0,
         { pendingCard with response_next := 1 }) :=
  read_byte_spec staleCard pendingCard junkCard 7 5 (by decide) (by decide)

/-- Auxiliary: do_command leaves the response window invariant intact —
each response builder resets the cursor to 0 and the end to one of 1, 5,
20 or 516 bytes. -/
theorem do_command_respInv (card card' : MmcCard) (h : RespInv card)
    (hd : do_command card = some card') : RespInv card' := by
  unfold do_command at hd
  split at hd
  · exact Option.some.inj hd ▸ h
  · split at hd
    · exact Option.some.inj hd ▸ ⟨by simp [set_response_buffer_r1],
        by simp [set_response_buffer_r1]⟩
    · exact Option.some.inj hd ▸ ⟨by simp [set_response_buffer_r7],
        by simp [set_response_buffer_r7]⟩
    · exact Option.some.inj hd ▸ ⟨by simp, by simp⟩
    · exact Option.some.inj hd ▸ ⟨by simp, by simp⟩
    · simp only [read_single_block] at hd
      split at hd
      · exact absurd hd (by simp)
      · exact Option.some.inj hd ▸ ⟨by simp, by simp⟩
    · exact Option.some.inj hd ▸ ⟨by simp [set_response_buffer_r1],
        by simp [set_response_buffer_r1]⟩
    · exact Option.some.inj hd ▸ ⟨by simp [set_response_buffer_r1],
        by simp [set_response_buffer_r1]⟩
    · exact Option.some.inj hd ▸ ⟨by simp [set_response_buffer_r1],
        by simp [set_response_buffer_r1]⟩
    · exact Option.some.inj hd ▸ ⟨by simp [set_response_buffer_r7],
        by simp [set_response_buffer_r7]⟩
    · exact absurd hd (by simp)

/-- Auxiliary: one state-machine step leaves the response window
invariant intact. -/
theorem write_respInv (card card' : MmcCard) (b : Nat) (h : RespInv card)
    (hw : libspectrum_mmc_write card b = some card') : RespInv card' := by
  cases hcs : card.command_state
  case waitingForCommand =>
    simp only [libspectrum_mmc_write, hcs] at hw
    by_cases hb : b &&& 0xc0 = 0x40
    · by_cases hcmd : supportedCommand (b &&& 0x3f) = true
      · simp only [parse_command, hb, hcmd, ne_eq, not_true_eq_false,
          ite_true, ite_false, if_true, if_false, Option.some.injEq] at hw
        exact hw ▸ h
      · simp [parse_command, hb, hcmd] at hw
    · simp only [parse_command, hb, ne_eq, not_false_eq_true, ite_true,
        ite_false, Option.some.injEq] at hw
      exact hw ▸ h
  case waitingForData0 =>
    simp only [libspectrum_mmc_write, hcs, Option.some.injEq] at hw
    exact hw ▸ h
  case waitingForData1 =>
    simp only [libspectrum_mmc_write, hcs, Option.some.injEq] at hw
    exact hw ▸ h
  case waitingForData2 =>
    simp only [libspectrum_mmc_write, hcs, Option.some.injEq] at hw
    exact hw ▸ h
  case waitingForData3 =>
    simp only [libspectrum_mmc_write, hcs, Option.some.injEq] at hw
    exact hw ▸ h
  case waitingForCrc =>
    simp only [libspectrum_mmc_write, hcs] at hw
    cases hdc : do_command card with
    | none => rw [hdc] at hw; exact absurd hw (by simp)
    | some c' =>
        rw [hdc] at hw
        simp only [Option.some.injEq] at hw
        have := do_command_respInv card c' h hdc
        exact hw ▸ ⟨this.1, this.2⟩
  case waitingForDataToken =>
    simp only [libspectrum_mmc_write, hcs] at hw
    by_cases hb : b = 0xfe
    · simp only [hb, ite_true, if_true, Option.some.injEq] at hw
      exact hw ▸ h
    · simp only [hb, ite_false, if_false, Option.some.injEq] at hw
      exact hw ▸ h
  case waitingForData =>
    simp only [libspectrum_mmc_write, hcs] at hw
    by_cases h512 : card.data_count + 1 = 512
    · simp only [h512, ite_true, if_true, Option.some.injEq] at hw
      exact hw ▸ h
    · simp only [h512, ite_false, if_false, Option.some.injEq] at hw
      exact hw ▸ h
  case waitingForDataCrc1 =>
    simp only [libspectrum_mmc_write, hcs, Option.some.injEq] at hw
    exact hw ▸ h
  case waitingForDataCrc2 =>
    simp only [libspectrum_mmc_write, hcs] at hw
    cases hdd : do_command_data card with
    | none => rw [hdd] at hw; exact absurd hw (by simp)
    | some c' =>
        rw [hdd] at hw
        simp only [Option.some.injEq] at hw
        refine hw ▸ ?_
        unfold do_command_data at hdd
        split at hdd
        · exact Option.some.inj hdd ▸ ⟨by simp, by simp⟩
        · exact absurd hdd (by simp)

/-- C9. Every operation preserves the response-window invariant (cursor
at most the end, end at most the 516-byte buffer capacity): it holds
after allocation and is preserved by read_byte, by every state-machine
step, by insertion, ejection and commit; and read_byte dereferences the
buffer only at cursor positions strictly below the end, which under the
invariant are strictly below 516, so no read takes a byte from outside
the response buffer. -/
theorem response_window_invariant (junk c1 c2 c2' c3 c3' c4 c5 : MmcCard)
    (b : Nat) (arg : Option Drive)
    (h1 : RespInv c1)
    (h2 : RespInv c2) (h2' : libspectrum_mmc_write c2 b = some c2')
    (h3 : RespInv c3) (h3' : libspectrum_mmc_insert c3 arg = some c3')
    (h4 : RespInv c4)
    (h5 : RespInv c5) (h5' : c5.response_next < c5.response_end) :
    RespInv (libspectrum_mmc_alloc junk)
    ∧ RespInv (libspectrum_mmc_read c1).2
    ∧ RespInv c2'
    ∧ RespInv c3'
    ∧ RespInv (libspectrum_mmc_eject c4)
    ∧ RespInv (libspectrum_mmc_commit c4)
    ∧ c5.response_next < 516 := by
  refine ⟨⟨by simp [libspectrum_mmc_alloc], by simp [libspectrum_mmc_alloc]⟩,
    ?_, write_respInv c2 c2' b h2 h2', ?_, ⟨h4.1, h4.2⟩, ?_, ?_⟩
  · unfold libspectrum_mmc_read
    split
    · exact ⟨by simpa using (by omega : c1.response_next + 1 ≤ c1.response_end),
        by simpa using h1.2⟩
    · exact h1
  · unfold libspectrum_mmc_insert at h3'
    split at h3'
    · exact absurd h3' (by simp)
    · exact Option.some.inj h3' ▸ ⟨h3.1, h3.2⟩
  · unfold libspectrum_mmc_commit
    split
    · exact h4
    · exact ⟨h4.1, h4.2⟩
  · exact lt_of_lt_of_le h5' h5.2

/-- C9 witness: the invariant theorem at concrete cards — a junk card
for allocation, a one-byte-window card for read and access-safety, the
zeroed card stepped by a rejected byte 0x00 and inserted with the
concrete drive, and the one-byte-window card for eject and commit. -/
theorem response_window_invariant_witness :
    RespInv (libspectrum_mmc_alloc junkCard)
    ∧ RespInv (libspectrum_mmc_read pendingCard).2
    ∧ RespInv zeroCard
    ∧ RespInv insertedCard512
    ∧ RespInv (libspectrum_mmc_eject pendingCard)
    ∧ RespInv (libspectrum_mmc_commit pendingCard)
    ∧ pendingCard.response_next < 516 :=
  response_window_invariant junkCard pendingCard zeroCard zeroCard zeroCard
    insertedCard512 pendingCard pendingCard 0x00 (some diskDrive512)
    ⟨by decide, by decide⟩ ⟨by decide, by decide⟩ rfl
    ⟨by decide, by decide⟩ rfl ⟨by decide, by decide⟩
    ⟨by decide, by decide⟩ (by decide)

/-- C8. With no backing image inserted, the CRC byte of any command
executes nothing: the resulting card is the old card with only
command_state replaced (WRITE_BLOCK still enters the data phase), so the
response buffer, cursor, end, idle flag, cache, c_size and drive are all
exactly as before and a subsequent read observes whatever stale response
window existed. -/
theorem no_media_command_is_noop (card : MmcCard) (b : Nat)
    (hs : card.command_state = CommandState.waitingForCrc)
    (hd : card.drive.disk = none) :
    libspectrum_mmc_write card b =
      some { card with
        command_state :=
          if card.current_command = 24 then CommandState.waitingForDataToken
          else CommandState.waitingForCommand } := by
  simp [libspectrum_mmc_write, hs, do_command, hd]

/-- C8 witness: a concrete mediless card waiting for the CRC byte of
SEND_CSD (opcode 9), with a stale one-byte response window: executing the
command changes only the state. -/
theorem no_media_command_is_noop_witness :
    libspectrum_mmc_write noMediaCsdCard 0xff =
      some { noMediaCsdCard with
        command_state := CommandState.waitingForCommand } := by
  have h := no_media_command_is_noop noMediaCsdCard 0xff rfl rfl
  simpa using h

/-- Auxiliary: the byte at index j after storing a list at offset k. -/
theorem storeList_eq (L : List Nat) (f : Nat → Nat) (k j : Nat) :
    storeList f k L j =
      if k ≤ j ∧ j < k + L.length then L.getD (j - k) 0 else f j := by
  induction L generalizing f k with
  | nil =>
      simp only [storeList, List.length_nil, Nat.add_zero]
      split
      · omega
      · rfl
  | cons b rest ih =>
      simp only [storeList, List.length_cons]
      rw [ih]
      by_cases hk : j = k
      · subst hk
        simp only [upd]
        split
        · omega
        · simp
      · by_cases hin : k + 1 ≤ j ∧ j < k + 1 + rest.length
        · rw [if_pos hin, if_pos (by omega)]
          have hj : j - k = (j - (k + 1)) + 1 := by omega
          rw [hj, List.getD_cons_succ]
        · rw [if_neg hin, if_neg (by omega)]
          simp [upd, hk]

/-- Auxiliary: running a concatenation of byte lists. -/
theorem runBytes_append (L1 L2 : List Nat) (card : MmcCard) :
    runBytes card (L1 ++ L2) =
      (runBytes card L1).bind (fun c => runBytes c L2) := by
  induction L1 generalizing card with
  | nil => simp [runBytes]
  | cons b rest ih =>
      simp only [List.cons_append, runBytes]
      cases libspectrum_mmc_write card b with
      | none => rfl
      | some c => exact ih c

/-- Auxiliary: looking up the sector just stored. -/
theorem cacheLookup_store_self (c : Cache) (k : Nat) (v : Nat → Nat) :
    cacheLookup (cacheStore c k v) k = some v := by
  induction c with
  | nil => simp [cacheStore, cacheLookup]
  | cons kv rest ih =>
      obtain ⟨k', v'⟩ := kv
      by_cases hk : k' = k
      · simp [cacheStore, cacheLookup, hk]
      · simp [cacheStore, cacheLookup, hk, ih]

/-- Auxiliary: the stored pair is a member of the store result. -/
theorem cacheStore_mem_self (c : Cache) (k : Nat) (v : Nat → Nat) :
    (k, v) ∈ cacheStore c k v := by
  induction c with
  | nil => simp [cacheStore]
  | cons kv rest ih =>
      obtain ⟨k', v'⟩ := kv
      by_cases hk : k' = k
      · simp [cacheStore, hk]
      · simp only [cacheStore, if_neg hk, List.mem_cons]
        exact Or.inr ih

/-- Auxiliary: every key of the cache after a store is either the stored
key or an old key. -/
theorem cacheStore_keys_sub (c : Cache) (k : Nat) (v : Nat → Nat) :
    ∀ x ∈ cacheStore c k v, x.1 = k ∨ x.1 ∈ c.map Prod.fst := by
  induction c with
  | nil =>
      intro x hx
      simp only [cacheStore, List.mem_singleton] at hx
      subst hx
      exact Or.inl rfl
  | cons kv rest ih =>
      obtain ⟨k', v'⟩ := kv
      intro x hx
      by_cases hk : k' = k
      · simp only [cacheStore, if_pos hk, List.mem_cons] at hx
        rcases hx with hx | hx
        · subst hx; exact Or.inl rfl
        · exact Or.inr (by
            simp only [List.map_cons, List.mem_cons]
            exact Or.inr (List.mem_map_of_mem Prod.fst hx))
      · simp only [cacheStore, if_neg hk, List.mem_cons] at hx
        rcases hx with hx | hx
        · subst hx; exact Or.inr (by simp)
        · rcases ih x hx with h1 | h1
          · exact Or.inl h1
          · exact Or.inr (by
              simp only [List.map_cons, List.mem_cons]
              exact Or.inr h1)

/-- Auxiliary: storing preserves distinctness of the cached sector
numbers. -/
theorem cacheStore_keys_nodup (c : Cache) (k : Nat) (v : Nat → Nat)
    (h : (c.map Prod.fst).Nodup) :
    ((cacheStore c k v).map Prod.fst).Nodup := by
  induction c with
  | nil => simp [cacheStore]
  | cons kv rest ih =>
      obtain ⟨k', v'⟩ := kv
      simp only [List.map_cons, List.nodup_cons] at h
      by_cases hk : k' = k
      · subst hk
        simpa [cacheStore, List.nodup_cons] using h
      · simp only [cacheStore, if_neg hk, List.map_cons, List.nodup_cons]
        refine ⟨?_, ih h.2⟩
        intro hmem
        simp only [List.mem_map] at hmem
        obtain ⟨x, hx, hx1⟩ := hmem
        rcases cacheStore_keys_sub rest k v x hx with h1 | h1
        · exact hk (hx1 ▸ h1 ▸ rfl)
        · exact h.1 (by rw [← hx1]; exact h1)

/-- Auxiliary: the cache is non-empty after a store. -/
theorem cacheStore_length_ne_zero (c : Cache) (k : Nat) (v : Nat → Nat) :
    (cacheStore c k v).length ≠ 0 := by
  cases c with
  | nil => simp [cacheStore]
  | cons kv rest =>
      obtain ⟨k', v'⟩ := kv
      by_cases hk : k' = k
      · simp [cacheStore, hk]
      · simp [cacheStore, hk]

/-- Auxiliary: the argument word of a card whose argument bytes were
stored by the four argument states. -/
theorem argWord_args4 (card : MmcCard) (cmd a0 a1 a2 a3 : Nat) :
    argWord (withArgs card cmd a0 a1 a2 a3) = sectorOf a0 a1 a2 a3 := by
  simp [argWord, withArgs, args4, upd, sectorOf]

/-- Auxiliary: one payload byte that does not complete the block. -/
theorem mmc_write_data_mid (card : MmcCard) (b : Nat)
    (hcs : card.command_state = CommandState.waitingForData)
    (hne : ¬(card.data_count + 1 = 512)) :
    libspectrum_mmc_write card b = some { card with
      send_buffer := upd card.send_buffer card.data_count b
      data_count := card.data_count + 1 } := by
  simp [libspectrum_mmc_write, hcs, hne]

/-- Auxiliary: the payload byte that completes the block. -/
theorem mmc_write_data_last (card : MmcCard) (b : Nat)
    (hcs : card.command_state = CommandState.waitingForData)
    (h512 : card.data_count + 1 = 512) :
    libspectrum_mmc_write card b = some { card with
      send_buffer := upd card.send_buffer card.data_count b
      data_count := card.data_count + 1
      command_state := CommandState.waitingForDataCrc1 } := by
  simp [libspectrum_mmc_write, hcs, h512]

/-- Auxiliary: running the payload bytes of the data phase. From
WaitingForData, feeding the bytes that complete the 512-byte payload
stores them at consecutive send_buffer offsets and leaves the machine in
the first data-CRC state. -/
theorem runBytes_data_phase (L : List Nat) (card : MmcCard)
    (hcs : card.command_state = CommandState.waitingForData)
    (hlen : card.data_count + L.length = 512) (hne : L ≠ []) :
    runBytes card L = some { card with
      send_buffer := storeList card.send_buffer card.data_count L
      data_count := 512
      command_state := CommandState.waitingForDataCrc1 } := by
  induction L generalizing card with
  | nil => exact absurd rfl hne
  | cons b rest ih =>
      cases rest with
      | nil =>
          have h512 : card.data_count + 1 = 512 := by
            simpa using hlen
          rw [runBytes, mmc_write_data_last card b hcs h512]
          dsimp only
          rw [runBytes]
          rw [show (512 : Nat) = card.data_count + 1 from h512.symm]
          rfl
      | cons b2 rest2 =>
          have hne512 : ¬(card.data_count + 1 = 512) := by
            simp only [List.length_cons] at hlen
            omega
          rw [runBytes, mmc_write_data_mid card b hcs hne512]
          dsimp only
          rw [ih { card with
                send_buffer := upd card.send_buffer card.data_count b
                data_count := card.data_count + 1 }
              hcs
              (by simp only [List.length_cons] at hlen ⊢; omega)
              (by simp)]
          rfl

/-- Auxiliary: running a complete command header (command byte, four
argument bytes, CRC byte) from WaitingForCommand. The command executes
on the CRC byte and the state enters the data phase exactly for
WRITE_BLOCK. -/
theorem runBytes_cmd_phase (card : MmcCard) (w a0 a1 a2 a3 c cmd : Nat)
    (hcs : card.command_state = CommandState.waitingForCommand)
    (hw : w &&& 0xc0 = 0x40) (hcmd : w &&& 0x3f = cmd)
    (hsupp : supportedCommand cmd = true) :
    runBytes card [w, a0, a1, a2, a3, c] =
      (do_command (withArgs card cmd a0 a1 a2 a3)).map
        (fun c' => { c' with
          command_state :=
            if cmd = 24 then CommandState.waitingForDataToken
            else CommandState.waitingForCommand }) := by
  have h1 : libspectrum_mmc_write card w = some { card with
      current_command := cmd
      command_state := CommandState.waitingForData0 } := by
    simp [libspectrum_mmc_write, hcs, parse_command, hw, hcmd, hsupp]
  rw [runBytes, h1]
  dsimp only
  rw [runBytes]
  dsimp only [libspectrum_mmc_write]
  rw [runBytes]
  dsimp only [libspectrum_mmc_write]
  rw [runBytes]
  dsimp only [libspectrum_mmc_write]
  rw [runBytes]
  dsimp only [libspectrum_mmc_write]
  rw [runBytes]
  dsimp only [libspectrum_mmc_write]
  have hW : withArgs card cmd a0 a1 a2 a3 = { card with
      current_command := cmd
      current_argument := upd (upd (upd (upd card.current_argument 0 a0)
        1 a1) 2 a2) 3 a3
      command_state := CommandState.waitingForCrc } := by
    simp only [withArgs, args4]
  rw [hW]
  cases hdc : do_command { card with
      current_command := cmd
      current_argument := upd (upd (upd (upd card.current_argument 0 a0)
        1 a1) 2 a2) 3 a3
      command_state := CommandState.waitingForCrc } with
  | none => rfl
  | some c' =>
      have hcc : c'.current_command = cmd :=
        (do_command_preserves _ c' hdc).1
      dsimp only [Option.map]
      rw [runBytes]
      rw [hcc]

/-- Auxiliary: from WaitingForDataToken with WRITE_BLOCK recorded, the
data token, 512 payload bytes and two CRC bytes complete the data phase:
the payload lands in send_buffer and (packed) in the cache, the
data-accepted response 0x05 0x05 is pending, and the machine returns to
WaitingForCommand. -/
theorem runBytes_data_to_end (card : MmcCard) (cB cC : Nat) (L : List Nat)
    (hcs : card.command_state = CommandState.waitingForDataToken)
    (hcmd : card.current_command = 24)
    (hlen : L.length = 512) :
    runBytes card (0xfe :: (L ++ [cB, cC])) = some { card with
      data_count := 512
      send_buffer := storeList card.send_buffer 0 L
      cache := cacheStore card.cache (argWord card)
        (packBuffer card.drive.sector_size (storeList card.send_buffer 0 L))
      response_buffer := upd (upd card.response_buffer 0 0x05) 1 0x05
      response_next := 0
      response_end := 2
      command_state := CommandState.waitingForCommand } := by
  rw [runBytes]
  have htok : libspectrum_mmc_write card 0xfe = some { card with
      command_state := CommandState.waitingForData
      data_count := 0 } := by
    simp [libspectrum_mmc_write, hcs]
  rw [htok]
  dsimp only
  rw [runBytes_append]
  rw [runBytes_data_phase L _ rfl (by simpa using hlen)
    (by rintro rfl; simp at hlen)]
  dsimp only [Option.bind]
  rw [runBytes]
  dsimp only [libspectrum_mmc_write]
  rw [runBytes]
  dsimp only [libspectrum_mmc_write]
  simp only [do_command_data, hcmd]
  rw [runBytes]
  rfl

/-- Auxiliary: a full WRITE_BLOCK byte sequence run from
WaitingForCommand with a backing image present: the CRC-time execution
sets the R1 response, the data phase then caches the payload and leaves
the data-accepted response. -/
theorem runBytes_write_block_disk (card : MmcCard) (dk : DiskFile)
    (a0 a1 a2 a3 cA cB cC : Nat) (L : List Nat)
    (hcs : card.command_state = CommandState.waitingForCommand)
    (hdk : card.drive.disk = some dk) (hlen : L.length = 512) :
    runBytes card (0x58 :: a0 :: a1 :: a2 :: a3 :: cA :: 0xfe ::
        (L ++ [cB, cC])) =
      some (writeBlockResult card a0 a1 a2 a3 L
        (upd card.response_buffer 0 card.is_idle)) := by
  have hsplit : (0x58 :: a0 :: a1 :: a2 :: a3 :: cA :: 0xfe ::
      (L ++ [cB, cC]) : List Nat)
      = [0x58, a0, a1, a2, a3, cA] ++ (0xfe :: (L ++ [cB, cC])) := rfl
  rw [hsplit, runBytes_append,
    runBytes_cmd_phase card 0x58 a0 a1 a2 a3 cA 24 hcs (by decide)
      (by decide) (by decide)]
  have hd2 : (withArgs card 24 a0 a1 a2 a3).drive.disk = some dk := hdk
  have hdo : do_command (withArgs card 24 a0 a1 a2 a3) =
      some (set_response_buffer_r1 (withArgs card 24 a0 a1 a2 a3)) := by
    unfold do_command
    rw [hd2]
    rfl
  rw [hdo]
  dsimp only [Option.map, Option.bind]
  rw [if_pos rfl]
  exact (runBytes_data_to_end _ cB cC L rfl rfl hlen).trans (by rfl)

/-- Auxiliary: a full WRITE_BLOCK byte sequence run from
WaitingForCommand with no backing image: the CRC-time execution is
skipped entirely, but the data phase still runs, caches the payload and
leaves the data-accepted response. -/
theorem runBytes_write_block_nodisk (card : MmcCard)
    (a0 a1 a2 a3 cA cB cC : Nat) (L : List Nat)
    (hcs : card.command_state = CommandState.waitingForCommand)
    (hdk : card.drive.disk = none) (hlen : L.length = 512) :
    runBytes card (0x58 :: a0 :: a1 :: a2 :: a3 :: cA :: 0xfe ::
        (L ++ [cB, cC])) =
      some (writeBlockResult card a0 a1 a2 a3 L card.response_buffer) := by
  have hsplit : (0x58 :: a0 :: a1 :: a2 :: a3 :: cA :: 0xfe ::
      (L ++ [cB, cC]) : List Nat)
      = [0x58, a0, a1, a2, a3, cA] ++ (0xfe :: (L ++ [cB, cC])) := rfl
  rw [hsplit, runBytes_append,
    runBytes_cmd_phase card 0x58 a0 a1 a2 a3 cA 24 hcs (by decide)
      (by decide) (by decide)]
  have hd2 : (withArgs card 24 a0 a1 a2 a3).drive.disk = none := hdk
  have hdo : do_command (withArgs card 24 a0 a1 a2 a3) =
      some (withArgs card 24 a0 a1 a2 a3) := by
    unfold do_command
    rw [hd2]
  rw [hdo]
  dsimp only [Option.map, Option.bind]
  rw [if_pos rfl]
  exact (runBytes_data_to_end _ cB cC L rfl rfl hlen).trans (by rfl)

/-- Auxiliary: a READ_SINGLE_BLOCK byte sequence whose sector is in the
write cache: the cached buffer supplies the payload (through the 256-byte
expansion when the backing sector size is 256), taking priority over the
backing image. -/
theorem runBytes_read_block_hit (card : MmcCard) (dk : DiskFile)
    (buf : Nat → Nat) (a0 a1 a2 a3 cD : Nat)
    (hcs : card.command_state = CommandState.waitingForCommand)
    (hdk : card.drive.disk = some dk)
    (hbuf : cacheLookup card.cache (sectorOf a0 a1 a2 a3) = some buf) :
    runBytes card (readSeq a0 a1 a2 a3 cD) =
      some { withArgs card 17 a0 a1 a2 a3 with
        response_buffer := fun j =>
          if j = 0 then card.is_idle
          else if j = 1 then 0xfe
          else if j < 514 then
            (if card.drive.sector_size = 256 then expand256 buf else buf)
              (j - 2)
          else if j < 516 then 0
          else card.response_buffer j
        response_next := 0
        response_end := 516
        command_state := CommandState.waitingForCommand } := by
  rw [show readSeq a0 a1 a2 a3 cD = [0x51, a0, a1, a2, a3, cD] from rfl,
    runBytes_cmd_phase card 0x51 a0 a1 a2 a3 cD 17 hcs (by decide)
      (by decide) (by decide)]
  have hd2 : (withArgs card 17 a0 a1 a2 a3).drive.disk = some dk := hdk
  have hdo : do_command (withArgs card 17 a0 a1 a2 a3) =
      read_single_block (withArgs card 17 a0 a1 a2 a3) := by
    unfold do_command
    rw [hd2]
    rfl
  rw [hdo]
  have haw : argWord (withArgs card 17 a0 a1 a2 a3) =
      sectorOf a0 a1 a2 a3 := argWord_args4 card 17 a0 a1 a2 a3
  have hb2 : cacheLookup (withArgs card 17 a0 a1 a2 a3).cache
      (argWord (withArgs card 17 a0 a1 a2 a3)) = some buf := by
    rw [haw]; exact hbuf
  simp only [read_single_block]
  rw [hb2]
  rfl

/-- Auxiliary: a READ_SINGLE_BLOCK byte sequence whose sector is not in
the write cache and lies within the backing image: the payload comes from
the image bytes at data_offset + sector_size * sector. -/
theorem runBytes_read_block_miss (card : MmcCard) (dk : DiskFile)
    (a0 a1 a2 a3 cD : Nat)
    (hcs : card.command_state = CommandState.waitingForCommand)
    (hdk : card.drive.disk = some dk)
    (hmiss : cacheLookup card.cache (sectorOf a0 a1 a2 a3) = none)
    (hsz : card.drive.data_offset +
        card.drive.sector_size * sectorOf a0 a1 a2 a3 +
        card.drive.sector_size ≤ dk.size) :
    runBytes card (readSeq a0 a1 a2 a3 cD) =
      some { withArgs card 17 a0 a1 a2 a3 with
        response_buffer := fun j =>
          if j = 0 then card.is_idle
          else if j = 1 then 0xfe
          else if j < 514 then
            (if card.drive.sector_size = 256 then
              expand256 (fun i => dk.bytes (card.drive.data_offset +
                card.drive.sector_size * sectorOf a0 a1 a2 a3 + i))
             else (fun i => dk.bytes (card.drive.data_offset +
                card.drive.sector_size * sectorOf a0 a1 a2 a3 + i)))
              (j - 2)
          else if j < 516 then 0
          else card.response_buffer j
        response_next := 0
        response_end := 516
        command_state := CommandState.waitingForCommand } := by
  rw [show readSeq a0 a1 a2 a3 cD = [0x51, a0, a1, a2, a3, cD] from rfl,
    runBytes_cmd_phase card 0x51 a0 a1 a2 a3 cD 17 hcs (by decide)
      (by decide) (by decide)]
  have hd2 : (withArgs card 17 a0 a1 a2 a3).drive.disk = some dk := hdk
  have hdo : do_command (withArgs card 17 a0 a1 a2 a3) =
      read_single_block (withArgs card 17 a0 a1 a2 a3) := by
    unfold do_command
    rw [hd2]
    rfl
  rw [hdo]
  have haw : argWord (withArgs card 17 a0 a1 a2 a3) =
      sectorOf a0 a1 a2 a3 := argWord_args4 card 17 a0 a1 a2 a3
  have hb2 : cacheLookup (withArgs card 17 a0 a1 a2 a3).cache
      (argWord (withArgs card 17 a0 a1 a2 a3)) = none := by
    rw [haw]; exact hmiss
  have hsz2 : (withArgs card 17 a0 a1 a2 a3).drive.data_offset +
      (withArgs card 17 a0 a1 a2 a3).drive.sector_size *
        argWord (withArgs card 17 a0 a1 a2 a3) +
      (withArgs card 17 a0 a1 a2 a3).drive.sector_size ≤ dk.size := by
    rw [haw]; exact hsz
  simp only [read_single_block]
  rw [hb2, hd2]
  dsimp only
  rw [if_pos hsz2]
  rfl

/-- Auxiliary: indexing the payload list built from a function. -/
theorem getD_map_range (n i : Nat) (P : Nat → Nat) (h : i < n) :
    ((List.range n).map P).getD i 0 = P i := by
  rw [List.getD_eq_getElem?_getD, List.getElem?_map, List.getElem?_range h]
  rfl

/-- Auxiliary: the commit fold never shrinks the file. -/
theorem commitFold_size_mono (entries : Cache) (d : DiskFile) (dofs : Nat) :
    d.size ≤ (entries.foldl
      (fun dd kv => diskWriteSector dd (dofs + 512 * kv.1) 512 kv.2)
      d).size := by
  induction entries generalizing d with
  | nil => exact le_refl _
  | cons kv rest ih =>
      refine le_trans ?_ (ih (diskWriteSector d (dofs + 512 * kv.1) 512 kv.2))
      simp [diskWriteSector]

/-- Auxiliary: committing sectors with other sector numbers does not
touch the 512-byte range of sector S. -/
theorem commitFold_other (entries : Cache) (d : DiskFile) (dofs S i : Nat)
    (hi : i < 512) (hS : S ∉ entries.map Prod.fst) :
    (entries.foldl
      (fun dd kv => diskWriteSector dd (dofs + 512 * kv.1) 512 kv.2)
      d).bytes (dofs + 512 * S + i) = d.bytes (dofs + 512 * S + i) := by
  induction entries generalizing d with
  | nil => rfl
  | cons kv rest ih =>
      obtain ⟨k, v⟩ := kv
      simp only [List.map_cons, List.mem_cons] at hS
      push_neg at hS
      rw [List.foldl_cons]
      rw [ih (diskWriteSector d (dofs + 512 * k) 512 v) hS.2]
      simp only [diskWriteSector]
      rw [if_neg (by
        intro hcontra
        have hne : k ≠ S := fun he => hS.1 he.symm
        omega)]

/-- Auxiliary: after the commit fold, the 512-byte range of a cached
sector S holds exactly its cached buffer and lies within the file. -/
theorem commitFold_bytes (entries : Cache) (d : DiskFile)
    (dofs S i : Nat) (buf : Nat → Nat)
    (hi : i < 512) (hmem : (S, buf) ∈ entries)
    (hnodup : (entries.map Prod.fst).Nodup) :
    (entries.foldl
      (fun dd kv => diskWriteSector dd (dofs + 512 * kv.1) 512 kv.2)
      d).bytes (dofs + 512 * S + i) = buf i
    ∧ dofs + 512 * S + 512 ≤ (entries.foldl
      (fun dd kv => diskWriteSector dd (dofs + 512 * kv.1) 512 kv.2)
      d).size := by
  induction entries generalizing d with
  | nil => exact absurd hmem (by simp)
  | cons kv rest ih =>
      obtain ⟨k, v⟩ := kv
      simp only [List.map_cons, List.nodup_cons] at hnodup
      rw [List.mem_cons] at hmem
      rcases hmem with hmem | hmem
      · have hSk : S = k := congrArg Prod.fst hmem
        have hbv : buf = v := congrArg Prod.snd hmem
        subst hSk
        subst hbv
        have hnot : S ∉ rest.map Prod.fst := hnodup.1
        rw [List.foldl_cons]
        constructor
        · rw [commitFold_other rest _ dofs S i hi hnot]
          simp only [diskWriteSector]
          rw [if_pos (by omega)]
          congr 1
          omega
        · refine le_trans ?_ (commitFold_size_mono rest _ dofs)
          simp [diskWriteSector]
        -- fallthrough handled above
      · have hSk : k ≠ S := by
          intro he
          exact hnodup.1 (he ▸ (List.mem_map_of_mem Prod.fst hmem))
        rw [List.foldl_cons]
        exact ih (diskWriteSector d (dofs + 512 * k) 512 v) hmem hnodup.2

/-- Auxiliary: reading back a sector that sits in the write cache of a
512-byte-sector card returns the cached bytes at response offsets
2..514. -/
theorem cached_read_value (card : MmcCard) (dk : DiskFile)
    (buf : Nat → Nat) (a0 a1 a2 a3 cD i : Nat)
    (hcs : card.command_state = CommandState.waitingForCommand)
    (hdk : card.drive.disk = some dk)
    (hss : card.drive.sector_size = 512)
    (hbuf : cacheLookup card.cache (sectorOf a0 a1 a2 a3) = some buf)
    (hi : i < 512) :
    (runBytes card (readSeq a0 a1 a2 a3 cD)).map
      (fun c => c.response_buffer (2 + i)) = some (buf i) := by
  rw [runBytes_read_block_hit card dk buf a0 a1 a2 a3 cD hcs hdk hbuf]
  dsimp only [Option.map]
  rw [if_neg (by omega), if_neg (by omega), if_pos (by omega)]
  rw [hss, if_neg (by decide : ¬((512 : Nat) = 256))]
  rw [show 2 + i - 2 = i from by omega]

/-- Auxiliary: after commit, reading back a sector that was in the write
cache of a 512-byte-sector card returns the committed bytes from the
backing image at response offsets 2..514. -/
theorem commit_then_read (card : MmcCard) (dk : DiskFile)
    (buf : Nat → Nat) (a0 a1 a2 a3 cD i : Nat)
    (hcs : card.command_state = CommandState.waitingForCommand)
    (hdk : card.drive.disk = some dk)
    (hss : card.drive.sector_size = 512)
    (hnodup : (card.cache.map Prod.fst).Nodup)
    (hmem : (sectorOf a0 a1 a2 a3, buf) ∈ card.cache)
    (hi : i < 512) :
    (runBytes (libspectrum_mmc_commit card) (readSeq a0 a1 a2 a3 cD)).map
      (fun c => c.response_buffer (2 + i)) = some (buf i) := by
  obtain ⟨dr, cch, csz, idl, cst, ccmd, carg, dcnt, sb, rb, rn, re⟩ := card
  obtain ⟨dsk, ssz, dofs, cy, hds, sct⟩ := dr
  dsimp only at hcs hdk hss hnodup hmem ⊢
  subst hss
  subst hdk
  subst hcs
  have hfold := commitFold_bytes cch dk dofs (sectorOf a0 a1 a2 a3) i buf
    hi hmem hnodup
  rw [show libspectrum_mmc_commit
      ⟨⟨some dk, 512, dofs, cy, hds, sct⟩, cch, csz, idl,
        CommandState.waitingForCommand, ccmd, carg, dcnt, sb, rb, rn, re⟩ =
      ⟨⟨some (cch.foldl
          (fun dd kv => diskWriteSector dd (dofs + 512 * kv.1) 512 kv.2) dk),
        512, dofs, cy, hds, sct⟩, [], csz, idl,
        CommandState.waitingForCommand, ccmd, carg, dcnt, sb, rb, rn, re⟩
    from rfl]
  rw [runBytes_read_block_miss
    ⟨⟨some (cch.foldl
        (fun dd kv => diskWriteSector dd (dofs + 512 * kv.1) 512 kv.2) dk),
      512, dofs, cy, hds, sct⟩, [], csz, idl,
      CommandState.waitingForCommand, ccmd, carg, dcnt, sb, rb, rn, re⟩
    (cch.foldl (fun dd kv => diskWriteSector dd (dofs + 512 * kv.1) 512 kv.2)
      dk)
    a0 a1 a2 a3 cD rfl rfl rfl (by exact hfold.2)]
  dsimp only [Option.map]
  rw [if_neg (by omega), if_neg (by omega), if_pos (by omega),
    if_neg (by decide : ¬((512 : Nat) = 256))]
  rw [show 2 + i - 2 = i from by omega]
  exact congrArg some hfold.1

/-- C2. The claim as stated is false on this code: with a 256-byte-sector
backing image, write_single_block keeps only the even-offset payload
bytes and read_single_block interleaves 0xff fillers, so the round trip
does not return the written payload. Writing the all-zero payload to
sector 0 of the 256-byte-sector card and reading it back yields 0xff at
response offset 3 (payload byte 1), where the claim demands the written
0x00. -/
theorem roundtrip_256_loses_odd_bytes_counterexample :
    ((runBytes readyCard256 (writeSeq 0 0 0 0 0 0 0 (fun _ => 0) ++
        readSeq 0 0 0 0 0)).map
      (fun c => c.response_buffer 3)) = some 0xff := by
  have hL : ((List.range 512).map (fun _ => (0 : Nat))).length = 512 := by
    simp
  have hwb : runBytes readyCard256 (writeSeq 0 0 0 0 0 0 0 (fun _ => 0)) =
      some (writeBlockResult readyCard256 0 0 0 0
        ((List.range 512).map (fun _ => 0))
        (upd readyCard256.response_buffer 0 readyCard256.is_idle)) :=
    runBytes_write_block_disk readyCard256 smallDisk 0 0 0 0 0 0 0
      ((List.range 512).map (fun _ => 0)) rfl rfl hL
  rw [runBytes_append, hwb]
  dsimp only [Option.bind]
  rw [runBytes_read_block_hit
    (writeBlockResult readyCard256 0 0 0 0 ((List.range 512).map (fun _ => 0))
      (upd readyCard256.response_buffer 0 readyCard256.is_idle))
    smallDisk
    (packBuffer 256 (storeList readyCard256.send_buffer 0
      ((List.range 512).map (fun _ => 0))))
    0 0 0 0 0 rfl rfl
    (cacheLookup_store_self readyCard256.cache (sectorOf 0 0 0 0) _)]
  rfl

/-- C2 (amended). On a card whose backing image has 512-byte sectors, for
every sector number (given by its four argument bytes) and every 512-byte
payload P, completing the WRITE_BLOCK byte sequence and then issuing
READ_SINGLE_BLOCK for the same sector yields exactly P at response
offsets 2..514, whether or not commit() runs in between: before a commit
the cached write is found by the read-through lookup, after a commit the
committed bytes are read back from the backing image. (The commit path
relies on libspectrum_ide_commit_drive, which is not among the sources
and is modelled from the spec.) -/
theorem write_read_roundtrip (card : MmcCard) (dk : DiskFile)
    (a0 a1 a2 a3 cA cB cC cD : Nat) (P : Nat → Nat) (i : Nat)
    (hcs : card.command_state = CommandState.waitingForCommand)
    (hdk : card.drive.disk = some dk)
    (hss : card.drive.sector_size = 512)
    (hnodup : (card.cache.map Prod.fst).Nodup)
    (hi : i < 512) :
    ((runBytes card (writeSeq a0 a1 a2 a3 cA cB cC P ++
        readSeq a0 a1 a2 a3 cD)).map
      (fun c => c.response_buffer (2 + i))) = some (P i)
    ∧ (((runBytes card (writeSeq a0 a1 a2 a3 cA cB cC P)).map
        libspectrum_mmc_commit).bind
      (fun c => runBytes c (readSeq a0 a1 a2 a3 cD))).map
        (fun c => c.response_buffer (2 + i)) = some (P i) := by
  have hL : ((List.range 512).map P).length = 512 := by simp
  have hwb : runBytes card (writeSeq a0 a1 a2 a3 cA cB cC P) =
      some (writeBlockResult card a0 a1 a2 a3 ((List.range 512).map P)
        (upd card.response_buffer 0 card.is_idle)) :=
    runBytes_write_block_disk card dk a0 a1 a2 a3 cA cB cC
      ((List.range 512).map P) hcs hdk hL
  have hbufPi : packBuffer card.drive.sector_size
      (storeList card.send_buffer 0 ((List.range 512).map P)) i = P i := by
    rw [hss]
    rw [show packBuffer 512
        (storeList card.send_buffer 0 ((List.range 512).map P)) =
        storeList card.send_buffer 0 ((List.range 512).map P) from by
      simp [packBuffer]]
    rw [storeList_eq]
    rw [if_pos ⟨Nat.zero_le i, by simpa using hi⟩]
    simpa using getD_map_range 512 i P hi
  refine ⟨?_, ?_⟩
  · rw [runBytes_append, hwb]
    dsimp only [Option.bind]
    exact (cached_read_value
      (writeBlockResult card a0 a1 a2 a3 ((List.range 512).map P)
        (upd card.response_buffer 0 card.is_idle))
      dk _ a0 a1 a2 a3 cD i rfl hdk hss
      (cacheLookup_store_self card.cache (sectorOf a0 a1 a2 a3) _) hi).trans
      (by rw [hbufPi])
  · rw [hwb]
    dsimp only [Option.map, Option.bind]
    exact (commit_then_read
      (writeBlockResult card a0 a1 a2 a3 ((List.range 512).map P)
        (upd card.response_buffer 0 card.is_idle))
      dk _ a0 a1 a2 a3 cD i rfl hdk hss
      (cacheStore_keys_nodup card.cache (sectorOf a0 a1 a2 a3) _ hnodup)
      (cacheStore_mem_self card.cache (sectorOf a0 a1 a2 a3) _) hi).trans
      (by rw [hbufPi])

/-- C2 witness: the amended round trip at the concrete 512-byte-sector
card, sector 1, the constant payload 0x7e, checked at payload offset 5,
with and without commit. -/
theorem write_read_roundtrip_witness :
    ((runBytes readyCard512 (writeSeq 0 0 0 1 0 0 0 (fun _ => 0x7e) ++
        readSeq 0 0 0 1 0)).map
      (fun c => c.response_buffer (2 + 5))) = some 0x7e
    ∧ (((runBytes readyCard512 (writeSeq 0 0 0 1 0 0 0 (fun _ => 0x7e))).map
        libspectrum_mmc_commit).bind
      (fun c => runBytes c (readSeq 0 0 0 1 0))).map
        (fun c => c.response_buffer (2 + 5)) = some 0x7e :=
  write_read_roundtrip readyCard512 smallDisk 0 0 0 1 0 0 0 0
    (fun _ => 0x7e) 5 rfl rfl rfl (by simp [readyCard512, zeroCard])
    (by decide)

/-- C10. With no backing image inserted, a WRITE_BLOCK command still
enters the data phase after its CRC byte — only the CRC-time command
execution is skipped, leaving the response window untouched at that
point — and the data token, 512 payload bytes and two CRC bytes are then
consumed: the payload is stored into the sector cache exactly as
write_single_block stores it (copied unchanged whenever the drive's
sector size is not 256, packed to the even-offset bytes when it is 256),
making the card dirty, and the 0x05 0x05 data-accepted response is
placed in the buffer with the state machine back at WaitingForCommand.
No assumption is made on the (junk) sector size of the mediless
drive. -/
theorem no_media_write_block (card : MmcCard) (a0 a1 a2 a3 cA cB cC : Nat)
    (P : Nat → Nat) (i : Nat)
    (hcs : card.command_state = CommandState.waitingForCommand)
    (hdk : card.drive.disk = none)
    (hi : i < 512) :
    (runBytes card [0x58, a0, a1, a2, a3, cA]).map (fun c => c.command_state)
        = some CommandState.waitingForDataToken
    ∧ (runBytes card [0x58, a0, a1, a2, a3, cA]).map
        (fun c => c.response_buffer) = some card.response_buffer
    ∧ (runBytes card [0x58, a0, a1, a2, a3, cA]).map
        (fun c => (c.response_next, c.response_end)) =
        some (card.response_next, card.response_end)
    ∧ (runBytes card (writeSeq a0 a1 a2 a3 cA cB cC P)).map
        (fun c => libspectrum_mmc_dirty c) = some true
    ∧ (runBytes card (writeSeq a0 a1 a2 a3 cA cB cC P)).map
        (fun c => (cacheLookup c.cache (sectorOf a0 a1 a2 a3)).map
          (fun buf => buf i)) =
        some (some (packBuffer card.drive.sector_size
          (storeList card.send_buffer 0 ((List.range 512).map P)) i))
    ∧ (card.drive.sector_size ≠ 256 →
        packBuffer card.drive.sector_size
          (storeList card.send_buffer 0 ((List.range 512).map P)) i = P i)
    ∧ (card.drive.sector_size = 256 → i < 256 →
        packBuffer card.drive.sector_size
          (storeList card.send_buffer 0 ((List.range 512).map P)) i =
          P (i * 2))
    ∧ (runBytes card (writeSeq a0 a1 a2 a3 cA cB cC P)).map
        (fun c => (c.response_buffer 0, c.response_buffer 1,
          c.response_next, c.response_end, c.command_state)) =
        some (0x05, 0x05, 0, 2, CommandState.waitingForCommand) := by
  have hL : ((List.range 512).map P).length = 512 := by simp
  have hcmd6 : runBytes card [0x58, a0, a1, a2, a3, cA] =
      some { withArgs card 24 a0 a1 a2 a3 with
        command_state := CommandState.waitingForDataToken } := by
    rw [runBytes_cmd_phase card 0x58 a0 a1 a2 a3 cA 24 hcs (by decide)
      (by decide) (by decide)]
    have hd2 : (withArgs card 24 a0 a1 a2 a3).drive.disk = none := hdk
    have hdo : do_command (withArgs card 24 a0 a1 a2 a3) =
        some (withArgs card 24 a0 a1 a2 a3) := by
      unfold do_command
      rw [hd2]
    rw [hdo]
    rfl
  have hwb : runBytes card (writeSeq a0 a1 a2 a3 cA cB cC P) =
      some (writeBlockResult card a0 a1 a2 a3 ((List.range 512).map P)
        card.response_buffer) :=
    runBytes_write_block_nodisk card a0 a1 a2 a3 cA cB cC
      ((List.range 512).map P) hcs hdk hL
  refine ⟨by rw [hcmd6]; rfl, by rw [hcmd6]; rfl, by rw [hcmd6]; rfl,
    ?_, ?_, ?_, ?_, ?_⟩
  · rw [hwb]
    simp only [Option.map_some']
    simp [libspectrum_mmc_dirty, writeBlockResult,
      cacheStore_length_ne_zero]
    exact fun h => cacheStore_length_ne_zero card.cache (sectorOf a0 a1 a2 a3)
      (packBuffer card.drive.sector_size
        (storeList card.send_buffer 0 ((List.range 512).map P)))
      (by rw [h]; rfl)
  · rw [hwb]
    simp only [Option.map_some']
    rw [show (writeBlockResult card a0 a1 a2 a3 ((List.range 512).map P)
        card.response_buffer).cache =
        cacheStore card.cache (sectorOf a0 a1 a2 a3)
          (packBuffer card.drive.sector_size
            (storeList card.send_buffer 0 ((List.range 512).map P)))
      from rfl]
    rw [cacheLookup_store_self]
    rfl
  · intro h256
    simp only [packBuffer, if_neg h256]
    rw [storeList_eq]
    rw [if_pos ⟨Nat.zero_le i, by simpa using hi⟩]
    simpa using getD_map_range 512 i P hi
  · intro h256 hi256
    simp only [packBuffer, if_pos h256]
    rw [storeList_eq]
    rw [if_pos ⟨Nat.zero_le (i * 2), by simp; omega⟩]
    simpa using getD_map_range 512 (i * 2) P (by omega)
  · rw [hwb]
    rfl

/-- C10 witness: the no-media WRITE_BLOCK theorem applied at two
concrete mediless cards — the zeroed card (junk sector size 512), with
constant payload 9 checked at offset 3, and the 256-junk-sector-size
card with the identity payload, whose cache entry at offset 3 holds the
payload's even-offset byte P 6 — discharging every hypothesis
concretely. -/
theorem no_media_write_block_witness :
    (runBytes zeroCard [0x58, 0, 0, 0, 0, 0]).map (fun c => c.command_state)
        = some CommandState.waitingForDataToken
    ∧ (runBytes zeroCard [0x58, 0, 0, 0, 0, 0]).map
        (fun c => c.response_buffer) = some zeroCard.response_buffer
    ∧ (runBytes zeroCard [0x58, 0, 0, 0, 0, 0]).map
        (fun c => (c.response_next, c.response_end)) =
        some (zeroCard.response_next, zeroCard.response_end)
    ∧ (runBytes zeroCard (writeSeq 0 0 0 0 0 0 0 (fun _ => 9))).map
        (fun c => libspectrum_mmc_dirty c) = some true
    ∧ (runBytes zeroCard (writeSeq 0 0 0 0 0 0 0 (fun _ => 9))).map
        (fun c => (cacheLookup c.cache (sectorOf 0 0 0 0)).map
          (fun buf => buf 3)) = some (some 9)
    ∧ (runBytes zeroCard256 (writeSeq 0 0 0 0 0 0 0 (fun j => j))).map
        (fun c => (cacheLookup c.cache (sectorOf 0 0 0 0)).map
          (fun buf => buf 3)) = some (some 6)
    ∧ (runBytes zeroCard (writeSeq 0 0 0 0 0 0 0 (fun _ => 9))).map
        (fun c => (c.response_buffer 0, c.response_buffer 1,
          c.response_next, c.response_end, c.command_state)) =
        some (0x05, 0x05, 0, 2, CommandState.waitingForCommand) := by
  have h1 := no_media_write_block zeroCard 0 0 0 0 0 0 0 (fun _ => 9) 3
    rfl rfl (by decide)
  have h2 := no_media_write_block zeroCard256 0 0 0 0 0 0 0 (fun j => j) 3
    rfl rfl (by decide)
  refine ⟨h1.1, h1.2.1, h1.2.2.1, h1.2.2.2.1, ?_, ?_,
    h1.2.2.2.2.2.2.2⟩
  · exact h1.2.2.2.2.1.trans
      (congrArg (fun v => some (some v)) (h1.2.2.2.2.2.1 (by decide)))
  · exact h2.2.2.2.2.1.trans
      (congrArg (fun v => some (some v))
        (h2.2.2.2.2.2.2.1 rfl (by decide)))

end Mmc
